import Mathlib

/-!
Verification of the style-request translation layer of the GoogleDocMCP
repository (src/googleDocsApiHelpers.ts, src/server.ts, src/types.ts).

Strings of the JavaScript source are modelled as `String` / `List Char`;
JavaScript numbers reaching the core are integers at every call site that
matters here, so they are modelled as `Int` / `Nat` (fractional style values
such as fontSize are modelled as `ℚ`).  Fallible code (`throw new Error`)
is modelled with `Except String`.
-/

/-! ## Definitions -/

/-! ### Color codec: hexToRgbColor (googleDocsApiHelpers.ts lines 54-78) -/

/-- A Google Docs API RgbColor object (types.ts lines 187-191): three
fractional components. -/
structure RgbColor where
  red : ℚ
  green : ℚ
  blue : ℚ
deriving DecidableEq

/-- The set of whitespace characters skipped by JavaScript `parseInt`
(ASCII part; the Unicode space characters cannot occur in the six-character
strings reaching `parseInt` from `hexToRgbColor`, which have already been
length-checked). -/
def jsWhitespace (c : Char) : Bool :=
  c == ' ' || c == '\t' || c == '\n' || c == '\r' || c == '\x0b' || c == '\x0c'

/-- Value of a single base-16 digit, `none` when the character is not a
hexadecimal digit. -/
def hexDigitVal? (c : Char) : Option Nat :=
  if '0' ≤ c ∧ c ≤ '9' then some (c.toNat - '0'.toNat)
  else if 'a' ≤ c ∧ c ≤ 'f' then some (c.toNat - 'a'.toNat + 10)
  else if 'A' ≤ c ∧ c ≤ 'F' then some (c.toNat - 'A'.toNat + 10)
  else none

/-- Accumulates the value of the longest hexadecimal-digit run at the head of
the list (the remainder of the string is ignored, exactly as JavaScript
`parseInt` ignores everything from the first non-digit on). -/
def hexDigitsValAux : List Char → Nat → Nat
  | [], acc => acc
  | c :: cs, acc =>
    match hexDigitVal? c with
    | some d => hexDigitsValAux cs (acc * 16 + d)
    | none => acc

/-- JavaScript `parseInt` with radix 16 strips a leading `0x` / `0X`. -/
def strip0x (s : List Char) : List Char :=
  match s with
  | c0 :: c1 :: rest => if c0 = '0' ∧ (c1 = 'x' ∨ c1 = 'X') then rest else s
  | _ => s

/-- After the optional sign, JavaScript `parseInt(-, 16)` strips `0x`, then
converts the longest prefix of hexadecimal digits; `NaN` (here `none`) when
that prefix is empty. -/
def parseHexBody (sign : Int) (s : List Char) : Option Int :=
  let s2 := strip0x s
  match s2 with
  | [] => none
  | c :: _ =>
    if (hexDigitVal? c).isSome then some (sign * (hexDigitsValAux s2 0 : Int))
    else none

/-- Model of JavaScript `parseInt(s, 16)` (the `parseInt(hexClean, 16)` call
on line 67 of googleDocsApiHelpers.ts): skip leading whitespace, read an
optional sign, then parse the longest hexadecimal prefix; `none` models
`NaN`. -/
def jsParseInt16 (s : List Char) : Option Int :=
  match s.dropWhile jsWhitespace with
  | [] => none
  | c :: rest =>
    if c = '-' then parseHexBody (-1) rest
    else if c = '+' then parseHexBody 1 rest
    else parseHexBody 1 (c :: rest)

/-- JavaScript `(n >> k) & 255` followed by `/ 255`, for `n` in the int32
range (every value produced from a six-character string is): arithmetic shift
is floor division by `2^k` and `& 255` is the nonnegative remainder mod
256. -/
def channelFrac (n : Int) (k : Nat) : ℚ :=
  ((Int.emod (Int.fdiv n (2 ^ k)) 256 : Int) : ℚ) / 255

/-- `hex.startsWith('#') ? hex.slice(1) : hex` (line 56). -/
def stripHash (hex : List Char) : List Char :=
  if hex.head? = some '#' then hex.tail else hex

/-- Expansion of the three-digit shorthand (lines 59-61): each digit is
duplicated; any other shape is left unchanged. -/
def expandShorthand (l : List Char) : List Char :=
  match l with
  | [a, b, c] => [a, a, b, b, c, c]
  | l => l

/-- `hexToRgbColor` (googleDocsApiHelpers.ts lines 54-78) on the character
list of its argument.  `none` models `null`. -/
def hexToRgbColorCore (hex : List Char) : Option RgbColor :=
  match hex with
  | [] => none                                  -- if (!hex) return null
  | _ :: _ =>
    let hexClean := expandShorthand (stripHash hex)
    if hexClean.length = 6 then
      match jsParseInt16 hexClean with
      | none => none                            -- isNaN(bigint)
      | some bigint =>
        some { red := channelFrac bigint 16
               green := channelFrac bigint 8
               blue := channelFrac bigint 0 }
    else none                                   -- invalid length

/-- `hexToRgbColor` on a `String`. -/
def hexToRgbColor (hex : String) : Option RgbColor :=
  hexToRgbColorCore hex.data

/-! ### Text locator: the match loop of formatMatchingText (server.ts lines 627-640) -/

/-- Model of JavaScript `hay.indexOf(needle, fromPos)`: the smallest index
`i ≥ min fromPos hay.length` at which `needle` occurs in `hay`; `none`
models `-1`. -/
def jsIndexOf (hay needle : List Char) (fromPos : Nat) : Option Nat :=
  (List.range (hay.length + 1)).find?
    (fun i => decide (min fromPos hay.length ≤ i ∧ (hay.drop i).take needle.length = needle))

/-- The `while (foundCount < matchInstance)` loop of server.ts lines 630-638,
with the number of remaining iterations as first argument; returns the final
`startIndex` (already shifted to the 1-based convention on line 635), or the
`foundCount` at the failed lookup (reported in the error message of line
633). -/
def locateAux (fullText textToFind : List Char) :
    Nat → Nat → Nat → Int → Except Nat Int
  | 0, _, _, startIndex => .ok startIndex
  | rem + 1, searchPos, foundCount, _ =>
    match jsIndexOf fullText textToFind searchPos with
    | none => .error foundCount
    | some matchIndex =>
      locateAux fullText textToFind rem (matchIndex + textToFind.length)
        (foundCount + 1) ((matchIndex : Int) + 1)

/-- The locator of the formatMatchingText handler (server.ts lines 627-640):
starting from `searchPos = 0`, `foundCount = 0`, `startIndex = -1`, run the
loop `matchInstance` times, then set `endIndex = startIndex + textToFind.length`
(line 640).  On failure the carried value is the `foundCount` the error
message reports. -/
def formatMatchingTextLocate (fullText textToFind : List Char)
    (matchInstance : Int) : Except Nat (Int × Int) :=
  match locateAux fullText textToFind matchInstance.toNat 0 0 (-1) with
  | .error foundCount => .error foundCount
  | .ok startIndex => .ok (startIndex, startIndex + (textToFind.length : Int))

/-- Modelled from the spec (section 4.3): the position of the `n`-th
(1-indexed) non-overlapping occurrence of `needle` in `fullText`, scanning
left to right from `pos` and resuming each search at the previous match's
end. -/
def specNthMatchFrom (fullText needle : List Char) : Nat → Nat → Option Nat
  | _, 0 => none
  | pos, n + 1 =>
    match jsIndexOf fullText needle pos with
    | none => none
    | some i => if n = 0 then some i else specNthMatchFrom fullText needle (i + needle.length) n

/-- Modelled from the spec (section 4.3): position of the `n`-th
non-overlapping occurrence, scanning from the start of the text. -/
def specNthMatch (fullText needle : List Char) (n : Nat) : Option Nat :=
  specNthMatchFrom fullText needle 0 n

/-- Modelled from the spec (sections 4.3, 7): the number of non-overlapping
occurrences found by the left-to-right scan from `pos`, counting at most `n`
of them. -/
def specMatchCountFrom (fullText needle : List Char) : Nat → Nat → Nat
  | _, 0 => 0
  | pos, n + 1 =>
    match jsIndexOf fullText needle pos with
    | none => 0
    | some i => 1 + specMatchCountFrom fullText needle (i + needle.length) n

/-- Modelled from the spec: occurrences found from the start of the text,
counting at most `n`. -/
def specMatchCount (fullText needle : List Char) (n : Nat) : Nat :=
  specMatchCountFrom fullText needle 0 n

/-! ### Style request builder: buildTextStyleRequests (googleDocsApiHelpers.ts lines 80-127) -/

/-- The sparse TextStyle intent (types.ts lines 193-203): absent (`none`)
means leave unchanged; present (`some v`) means set to `v`, even when `v` is
falsy. -/
structure TextStyle where
  bold : Option Bool := none
  italic : Option Bool := none
  underline : Option Bool := none
  strikethrough : Option Bool := none
  fontSize : Option ℚ := none
  fontFamily : Option String := none
  foregroundColor : Option String := none
  backgroundColor : Option String := none
  linkUrl : Option String := none
deriving DecidableEq

/-- Google Docs `Dimension` (`{ magnitude, unit: 'PT' }`, line 93). -/
structure GDimension where
  magnitude : ℚ
  unit : String
deriving DecidableEq

/-- Google Docs `WeightedFontFamily` (`{ fontFamily }`, line 97). -/
structure GWeightedFontFamily where
  fontFamily : String
deriving DecidableEq

/-- Google Docs `Color` (`{ rgbColor }`, lines 103 and 109). -/
structure GColor where
  rgbColor : RgbColor
deriving DecidableEq

/-- Google Docs `OptionalColor` (`{ color }`, lines 103 and 109). -/
structure GOptionalColor where
  color : GColor
deriving DecidableEq

/-- Google Docs `Link` (`{ url }`, line 113). -/
structure GLink where
  url : String
deriving DecidableEq

/-- The accumulated `docs_v1.Schema$TextStyle` payload (`gdocsTextStyle` on
line 85): a field is `none` exactly when the corresponding `if` on lines
88-115 did not fire. -/
structure GTextStyle where
  bold : Option Bool := none
  italic : Option Bool := none
  underline : Option Bool := none
  strikethrough : Option Bool := none
  fontSize : Option GDimension := none
  weightedFontFamily : Option GWeightedFontFamily := none
  foregroundColor : Option GOptionalColor := none
  backgroundColor : Option GOptionalColor := none
  link : Option GLink := none
deriving DecidableEq

/-- `docs_v1.Schema$Range`: the half-open index range of an update. -/
structure DocsRange where
  startIndex : Int
  endIndex : Int
deriving DecidableEq

/-- `docs_v1.Schema$UpdateTextStyleRequest` (lines 119-123). -/
structure UpdateTextStyleRequest where
  range : DocsRange
  textStyle : GTextStyle
  fields : String
deriving DecidableEq

/-- `docs_v1.Schema$Request` as used by the builder: only the
`updateTextStyle` member is ever populated by `buildTextStyleRequests`. -/
structure DocsRequest where
  updateTextStyle : Option UpdateTextStyleRequest := none
deriving DecidableEq

/-- The one-element contribution of a present attribute to an accumulated
name list (each `fieldsToUpdate.push(name)` on lines 88-115 runs exactly when
the attribute is present). -/
def presSeg {α : Type} (o : Option α) (n : String) : List String :=
  match o with
  | some _ => [n]
  | none => []

/-- The `fieldsToUpdate` list accumulated by lines 88-115, in declaration
order; the entries pushed for `fontFamily` and `linkUrl` are the remote field
names `weightedFontFamily` (line 98) and `link` (line 114). -/
def fieldsToUpdate (ts : TextStyle) : List String :=
  presSeg ts.bold "bold" ++ presSeg ts.italic "italic" ++
  presSeg ts.underline "underline" ++ presSeg ts.strikethrough "strikethrough" ++
  presSeg ts.fontSize "fontSize" ++ presSeg ts.fontFamily "weightedFontFamily" ++
  presSeg ts.foregroundColor "foregroundColor" ++ presSeg ts.backgroundColor "backgroundColor" ++
  presSeg ts.linkUrl "link"

/-- The attribute names of the populated fields of the intent, in declaration
order (used to compare the produced field mask against the intent). -/
def populatedAttrNames (ts : TextStyle) : List String :=
  presSeg ts.bold "bold" ++ presSeg ts.italic "italic" ++
  presSeg ts.underline "underline" ++ presSeg ts.strikethrough "strikethrough" ++
  presSeg ts.fontSize "fontSize" ++ presSeg ts.fontFamily "fontFamily" ++
  presSeg ts.foregroundColor "foregroundColor" ++ presSeg ts.backgroundColor "backgroundColor" ++
  presSeg ts.linkUrl "linkUrl"

/-- The remote field name the builder pushes for each intent attribute:
identical to the attribute name except for `fontFamily` and `linkUrl`. -/
def canonicalFieldName (attr : String) : String :=
  if attr = "fontFamily" then "weightedFontFamily"
  else if attr = "linkUrl" then "link"
  else attr

/-- Decoding of the foreground color (lines 100-105): `throw new Error` with
the exact message of line 102 when the codec rejects the literal. -/
def decodeFg (v : Option String) : Except String (Option RgbColor) :=
  match v with
  | none => .ok none
  | some hex =>
    match hexToRgbColor hex with
    | some rgb => .ok (some rgb)
    | none => .error ("Invalid foreground hex color: " ++ hex)

/-- Decoding of the background color (lines 106-111, message of line 108). -/
def decodeBg (v : Option String) : Except String (Option RgbColor) :=
  match v with
  | none => .ok none
  | some hex =>
    match hexToRgbColor hex with
    | some rgb => .ok (some rgb)
    | none => .error ("Invalid background hex color: " ++ hex)

/-- The accumulated `gdocsTextStyle` payload of lines 88-115, given the
already-decoded colors: each field is set exactly when the corresponding
attribute is present. -/
def gdocsTextStyle (ts : TextStyle) (fg bg : Option RgbColor) : GTextStyle :=
  { bold := ts.bold
    italic := ts.italic
    underline := ts.underline
    strikethrough := ts.strikethrough
    fontSize := ts.fontSize.map (fun m => { magnitude := m, unit := "PT" })
    weightedFontFamily := ts.fontFamily.map (fun f => { fontFamily := f })
    foregroundColor := fg.map (fun c => { color := { rgbColor := c } })
    backgroundColor := bg.map (fun c => { color := { rgbColor := c } })
    link := ts.linkUrl.map (fun u => { url := u }) }

/-- `buildTextStyleRequests` (lines 80-127).  The interleaved accumulation of
the source is factored into `fieldsToUpdate` / `gdocsTextStyle` / the two
color decodes; the observable behaviour is identical: the foreground throw of
line 102 fires before the background throw of line 108, no other attribute
can throw, and on success a single request carrying the whole payload and the
comma-joined mask is emitted when any field was pushed (lines 117-125),
otherwise the empty list is returned. -/
def buildTextStyleRequests (ts : TextStyle) (range : DocsRange) :
    Except String (List DocsRequest) :=
  match decodeFg ts.foregroundColor with
  | .error e => .error e
  | .ok fg =>
    match decodeBg ts.backgroundColor with
    | .error e => .error e
    | .ok bg =>
      let fields := fieldsToUpdate ts
      if fields.length > 0 then
        .ok [{ updateTextStyle := some
                 { range := range
                   textStyle := gdocsTextStyle ts fg bg
                   fields := String.intercalate "," fields } }]
      else .ok []

/-- The formatMatchingText handler fragment up to the located range
(server.ts lines 602-640): the only validation performed before the match
loop runs is the empty-style check of lines 606-608; there is no check on
`textToFind`. -/
def formatMatchingTextHandler (textStyle : TextStyle) (fullText textToFind : List Char)
    (matchInstance : Int) : Except String (Int × Int) :=
  if (populatedAttrNames textStyle).length = 0 then
    .error "At least one styling property (bold, color, etc.) must be provided."
  else
    match formatMatchingTextLocate fullText textToFind matchInstance with
    | .error foundCount =>
      .error ("Could not find instance " ++ toString matchInstance ++ " of \"" ++
        String.mk textToFind ++ "\". Only " ++ toString foundCount ++
        " instance(s) were found.")
    | .ok r => .ok r

/-! ### Batch update dispatcher (googleDocsApiHelpers.ts lines 7-17) and the
tool layer's catch-all wrapper (server.ts lines 807-809) -/

/-- `docs_v1.Schema$BatchUpdateDocumentResponse` (only shape matters here). -/
structure Schema_BatchUpdateDocumentResponse where
  documentId : Option String := none
deriving DecidableEq

/-- The transport-level response object whose `data` member the dispatcher
returns (line 16). -/
structure ApiResponse where
  data : Schema_BatchUpdateDocumentResponse
deriving DecidableEq

/-- The authorized remote client: `docs.documents.batchUpdate` is an opaque
remote call which either yields a response or fails with an error message. -/
structure DocsClient where
  batchUpdate : String → List DocsRequest → Except String ApiResponse

/-- `executeBatchUpdate` (lines 7-17): one remote call, whose `data` is
returned on success and whose error propagates untouched (there is no
try/catch in the dispatcher). -/
def executeBatchUpdate (docs : DocsClient) (documentId : String)
    (requests : List DocsRequest) : Except String Schema_BatchUpdateDocumentResponse :=
  match docs.batchUpdate documentId requests with
  | .error e => .error e
  | .ok response => .ok response.data

/-- The catch-all of the tool dispatcher (server.ts lines 807-809): every
error is rethrown as `Tool execution failed: ` followed by the original
message. -/
def toolErrorWrap (e : String) : String :=
  "Tool execution failed: " ++ e

/-! ## Supporting lemmas -/

theorem hexDigit_ne {c x : Char} (h : (hexDigitVal? c).isSome)
    (hx : hexDigitVal? x = none) : c ≠ x := by
  intro he
  rw [he, hx] at h
  simp at h

theorem hexDigit_not_ws {c : Char} (h : (hexDigitVal? c).isSome) :
    jsWhitespace c = false := by
  cases hws : jsWhitespace c with
  | false => rfl
  | true =>
    unfold jsWhitespace at hws
    simp only [Bool.or_eq_true, beq_iff_eq] at hws
    rcases hws with ((((h1 | h1) | h1) | h1) | h1) | h1 <;>
      (subst h1; simp [hexDigitVal?] at h)

theorem channelFrac_nonneg (n : Int) (k : Nat) : 0 ≤ channelFrac n k := by
  unfold channelFrac
  apply div_nonneg
  · exact_mod_cast Int.emod_nonneg _ (by norm_num)
  · norm_num

theorem channelFrac_le_one (n : Int) (k : Nat) : channelFrac n k ≤ 1 := by
  unfold channelFrac
  rw [div_le_one (by norm_num : (0:ℚ) < 255)]
  have h : Int.emod (Int.fdiv n (2 ^ k)) 256 < 256 :=
    Int.emod_lt_of_pos _ (by norm_num)
  exact_mod_cast Int.lt_add_one_iff.mp (by exact_mod_cast h)

theorem stripHash_cons_hash (l : List Char) : stripHash ('#' :: l) = l := by
  simp [stripHash]

theorem stripHash_of_ne {a : Char} (l : List Char) (ha : a ≠ '#') :
    stripHash (a :: l) = a :: l := by
  simp [stripHash, ha]

theorem jsParseInt16_hex_head (a : Char) (l : List Char)
    (ha : (hexDigitVal? a).isSome = true)
    (hx : ∀ c ∈ l.head?, (hexDigitVal? c).isSome = true) :
    jsParseInt16 (a :: l) = some ((hexDigitsValAux (a :: l) 0 : Int)) := by
  have ham : a ≠ '-' := hexDigit_ne ha (by decide)
  have hap : a ≠ '+' := hexDigit_ne ha (by decide)
  unfold jsParseInt16
  rw [show List.dropWhile jsWhitespace (a :: l) = a :: l by
    simp [List.dropWhile, hexDigit_not_ws ha]]
  show (if a = '-' then parseHexBody (-1) l
        else if a = '+' then parseHexBody 1 l
        else parseHexBody 1 (a :: l)) = _
  rw [if_neg ham, if_neg hap]
  unfold parseHexBody
  have hstrip : strip0x (a :: l) = a :: l := by
    unfold strip0x
    cases l with
    | nil => rfl
    | cons b rest =>
      have hbx : b ≠ 'x' := hexDigit_ne (hx b (by simp)) (by decide)
      have hbX : b ≠ 'X' := hexDigit_ne (hx b (by simp)) (by decide)
      simp [hbx, hbX]
  rw [hstrip]
  simp [ha]

theorem hexToRgbColorCore_six (a b c d e f : Char)
    (ha : (hexDigitVal? a).isSome = true) (hb : (hexDigitVal? b).isSome = true) :
    hexToRgbColorCore [a, b, c, d, e, f] =
      some { red := channelFrac ((hexDigitsValAux [a, b, c, d, e, f] 0 : Int)) 16
             green := channelFrac ((hexDigitsValAux [a, b, c, d, e, f] 0 : Int)) 8
             blue := channelFrac ((hexDigitsValAux [a, b, c, d, e, f] 0 : Int)) 0 } := by
  have ha' : a ≠ '#' := hexDigit_ne ha (by decide)
  unfold hexToRgbColorCore
  rw [show expandShorthand (stripHash [a, b, c, d, e, f]) = [a, b, c, d, e, f] by
    rw [stripHash_of_ne _ ha']
    rfl]
  rw [if_pos (show ([a, b, c, d, e, f] : List Char).length = 6 from rfl)]
  rw [jsParseInt16_hex_head a [b, c, d, e, f] ha (by intro x hx; simp at hx; subst hx; exact hb)]

theorem hexToRgbColorCore_hash_six (a b c d e f : Char)
    (ha : (hexDigitVal? a).isSome = true) :
    hexToRgbColorCore ('#' :: [a, b, c, d, e, f]) = hexToRgbColorCore [a, b, c, d, e, f] := by
  have ha' : a ≠ '#' := hexDigit_ne ha (by decide)
  conv_lhs => unfold hexToRgbColorCore
  conv_rhs => unfold hexToRgbColorCore
  rw [stripHash_cons_hash, stripHash_of_ne _ ha']

theorem hexToRgbColorCore_three (a b c : Char)
    (ha : (hexDigitVal? a).isSome = true) :
    hexToRgbColorCore [a, b, c] = hexToRgbColorCore [a, a, b, b, c, c] := by
  have ha' : a ≠ '#' := hexDigit_ne ha (by decide)
  conv_lhs => unfold hexToRgbColorCore
  conv_rhs => unfold hexToRgbColorCore
  rw [stripHash_of_ne _ ha', stripHash_of_ne _ ha']
  rfl

theorem locateAux_succ_none {fullText needle : List Char} {pos : Nat}
    (h : jsIndexOf fullText needle pos = none) (rem c : Nat) (s : Int) :
    locateAux fullText needle (rem + 1) pos c s = .error c := by
  simp only [locateAux, h]

theorem locateAux_succ_some {fullText needle : List Char} {pos i : Nat}
    (h : jsIndexOf fullText needle pos = some i) (rem c : Nat) (s : Int) :
    locateAux fullText needle (rem + 1) pos c s =
      locateAux fullText needle rem (i + needle.length) (c + 1) ((i : Int) + 1) := by
  simp only [locateAux, h]

theorem specNthMatchFrom_succ_none {fullText needle : List Char} {pos : Nat}
    (h : jsIndexOf fullText needle pos = none) (n : Nat) :
    specNthMatchFrom fullText needle pos (n + 1) = none := by
  simp only [specNthMatchFrom, h]

theorem specNthMatchFrom_succ_some {fullText needle : List Char} {pos i : Nat}
    (h : jsIndexOf fullText needle pos = some i) (n : Nat) :
    specNthMatchFrom fullText needle pos (n + 1) =
      if n = 0 then some i else specNthMatchFrom fullText needle (i + needle.length) n := by
  simp only [specNthMatchFrom, h]

theorem specMatchCountFrom_succ_none {fullText needle : List Char} {pos : Nat}
    (h : jsIndexOf fullText needle pos = none) (n : Nat) :
    specMatchCountFrom fullText needle pos (n + 1) = 0 := by
  simp only [specMatchCountFrom, h]

theorem specMatchCountFrom_succ_some {fullText needle : List Char} {pos i : Nat}
    (h : jsIndexOf fullText needle pos = some i) (n : Nat) :
    specMatchCountFrom fullText needle pos (n + 1) =
      1 + specMatchCountFrom fullText needle (i + needle.length) n := by
  simp only [specMatchCountFrom, h]

theorem locateAux_of_nth (fullText needle : List Char) :
    ∀ (rem pos c : Nat) (s : Int) (p : Nat),
      specNthMatchFrom fullText needle pos rem = some p →
      locateAux fullText needle rem pos c s = .ok ((p : Int) + 1) := by
  intro rem
  induction rem with
  | zero => intro pos c s p h; simp [specNthMatchFrom] at h
  | succ n ih =>
    intro pos c s p h
    cases hidx : jsIndexOf fullText needle pos with
    | none => rw [specNthMatchFrom_succ_none hidx] at h; exact absurd h (by simp)
    | some i =>
      rw [specNthMatchFrom_succ_some hidx] at h
      rw [locateAux_succ_some hidx]
      by_cases hn : n = 0
      · subst hn
        rw [if_pos rfl] at h
        obtain rfl : i = p := by simpa using h
        rfl
      · rw [if_neg hn] at h
        exact ih (i + needle.length) (c + 1) ((i : Int) + 1) p h

theorem locateAux_of_nth_none (fullText needle : List Char) :
    ∀ (rem pos c : Nat) (s : Int),
      specNthMatchFrom fullText needle pos (rem + 1) = none →
      locateAux fullText needle (rem + 1) pos c s =
        .error (c + specMatchCountFrom fullText needle pos (rem + 1)) ∧
      specMatchCountFrom fullText needle pos (rem + 1) ≤ rem := by
  intro rem
  induction rem with
  | zero =>
    intro pos c s h
    cases hidx : jsIndexOf fullText needle pos with
    | none =>
      rw [locateAux_succ_none hidx, specMatchCountFrom_succ_none hidx]
      exact ⟨rfl, Nat.le_refl 0⟩
    | some i =>
      rw [specNthMatchFrom_succ_some hidx, if_pos rfl] at h
      exact absurd h (by simp)
  | succ m ih =>
    intro pos c s h
    cases hidx : jsIndexOf fullText needle pos with
    | none =>
      rw [locateAux_succ_none hidx, specMatchCountFrom_succ_none hidx]
      exact ⟨rfl, Nat.zero_le _⟩
    | some i =>
      rw [specNthMatchFrom_succ_some hidx, if_neg (Nat.succ_ne_zero m)] at h
      have hrec := ih (i + needle.length) (c + 1) ((i : Int) + 1) h
      rw [locateAux_succ_some hidx, specMatchCountFrom_succ_some hidx]
      refine ⟨?_, by omega⟩
      rw [hrec.1]
      congr 1
      omega

theorem jsIndexOf_empty_needle (hay : List Char) : jsIndexOf hay [] 0 = some 0 := by
  unfold jsIndexOf
  rw [List.range_succ_eq_map]
  rw [List.find?_cons_of_pos]
  simp

theorem locateAux_empty_needle (fullText : List Char) :
    ∀ (k c : Nat), locateAux fullText [] (k + 1) 0 c (-1) = .ok 1 := by
  have hstep : ∀ (k c : Nat) (s : Int), locateAux fullText [] (k + 1) 0 c s =
      locateAux fullText [] k 0 (c + 1) 1 := by
    intro k c s
    have h := locateAux_succ_some (jsIndexOf_empty_needle fullText) k c s
    simpa using h
  intro k
  induction k with
  | zero => intro c; rw [hstep]; rfl
  | succ m ih => intro c; rw [hstep]; exact ih (c + 1)

theorem map_presSeg {α : Type} (f : String → String) (o : Option α) (n : String) :
    (presSeg o n).map f = presSeg o (f n) := by
  cases o <;> simp [presSeg]

theorem mem_presSeg {α : Type} (m : String) (o : Option α) (n : String) :
    m ∈ presSeg o n ↔ m = n ∧ o ≠ none := by
  cases o <;> simp [presSeg]

theorem fields_eq_map (ts : TextStyle) :
    fieldsToUpdate ts = (populatedAttrNames ts).map canonicalFieldName := by
  simp only [fieldsToUpdate, populatedAttrNames, List.map_append, map_presSeg,
    show canonicalFieldName "bold" = "bold" from by decide,
    show canonicalFieldName "italic" = "italic" from by decide,
    show canonicalFieldName "underline" = "underline" from by decide,
    show canonicalFieldName "strikethrough" = "strikethrough" from by decide,
    show canonicalFieldName "fontSize" = "fontSize" from by decide,
    show canonicalFieldName "fontFamily" = "weightedFontFamily" from by decide,
    show canonicalFieldName "foregroundColor" = "foregroundColor" from by decide,
    show canonicalFieldName "backgroundColor" = "backgroundColor" from by decide,
    show canonicalFieldName "linkUrl" = "link" from by decide]

theorem decodeFg_ok_cases {v : Option String} {fg : Option RgbColor}
    (h : decodeFg v = .ok fg) :
    (v = none ∧ fg = none) ∨
      ∃ hex rgb, v = some hex ∧ hexToRgbColor hex = some rgb ∧ fg = some rgb := by
  cases v with
  | none =>
    left
    refine ⟨rfl, ?_⟩
    simpa [decodeFg] using h.symm
  | some hex =>
    right
    cases hrgb : hexToRgbColor hex with
    | none => simp [decodeFg, hrgb] at h
    | some rgb =>
      refine ⟨hex, rgb, rfl, hrgb, ?_⟩
      simp [decodeFg, hrgb] at h
      exact h.symm

theorem decodeBg_ok_cases {v : Option String} {bg : Option RgbColor}
    (h : decodeBg v = .ok bg) :
    (v = none ∧ bg = none) ∨
      ∃ hex rgb, v = some hex ∧ hexToRgbColor hex = some rgb ∧ bg = some rgb := by
  cases v with
  | none =>
    left
    refine ⟨rfl, ?_⟩
    simpa [decodeBg] using h.symm
  | some hex =>
    right
    cases hrgb : hexToRgbColor hex with
    | none => simp [decodeBg, hrgb] at h
    | some rgb =>
      refine ⟨hex, rgb, rfl, hrgb, ?_⟩
      simp [decodeBg, hrgb] at h
      exact h.symm

theorem build_ok_shape {ts : TextStyle} {range : DocsRange} {l : List DocsRequest}
    (h : buildTextStyleRequests ts range = .ok l) :
    ∃ fg bg, decodeFg ts.foregroundColor = .ok fg ∧ decodeBg ts.backgroundColor = .ok bg ∧
      ((fieldsToUpdate ts = [] ∧ l = []) ∨
       (fieldsToUpdate ts ≠ [] ∧
        l = [{ updateTextStyle := some
                 { range := range
                   textStyle := gdocsTextStyle ts fg bg
                   fields := String.intercalate "," (fieldsToUpdate ts) } }])) := by
  cases hfg : decodeFg ts.foregroundColor with
  | error e => rw [buildTextStyleRequests.eq_def, hfg] at h; exact absurd h (by simp)
  | ok fg =>
    cases hbg : decodeBg ts.backgroundColor with
    | error e =>
      rw [buildTextStyleRequests.eq_def, hfg, hbg] at h
      exact absurd h (by simp)
    | ok bg =>
      refine ⟨fg, bg, rfl, rfl, ?_⟩
      rw [buildTextStyleRequests.eq_def, hfg, hbg] at h
      by_cases hf : fieldsToUpdate ts = []
      · left
        simp only [hf, List.length_nil, gt_iff_lt, Nat.lt_irrefl, if_false] at h
        simp at h
        exact ⟨hf, h⟩
      · right
        have hlen : (fieldsToUpdate ts).length > 0 := List.length_pos.mpr hf
        simp only [gt_iff_lt, hlen, if_true] at h
        simp at h
        exact ⟨hf, h.symm⟩

/-! ## Claims -/

/-- Claim C1 counterexample: for the intent populating only `fontFamily`, the
produced field mask is `["weightedFontFamily"]`, which is not a subset (a
fortiori not a strict subset) of the populated attribute names
`["fontFamily"]`, refuting the claim that the mask member names are a strict
subset of the populated intent's attribute names. -/
theorem fieldMask_not_attrName_subset_cex :
    fieldsToUpdate { fontFamily := some "Arial" } = ["weightedFontFamily"] ∧
    populatedAttrNames { fontFamily := some "Arial" } = ["fontFamily"] ∧
    buildTextStyleRequests { fontFamily := some "Arial" }
        { startIndex := 1, endIndex := 2 } =
      .ok [{ updateTextStyle := some
               { range := { startIndex := 1, endIndex := 2 }
                 textStyle := { weightedFontFamily := some { fontFamily := "Arial" } }
                 fields := "weightedFontFamily" } }] ∧
    ¬ (∀ f ∈ fieldsToUpdate { fontFamily := some "Arial" },
         f ∈ populatedAttrNames { fontFamily := some "Arial" }) :=
  ⟨rfl, rfl, rfl, by decide⟩

/-- Claim C1 (amended): the field mask produced by the builder has exactly
one entry per populated attribute, in declaration order and equal in count;
each entry is the attribute's canonical remote field name — the attribute's
own name except `fontFamily ↦ weightedFontFamily` and `linkUrl ↦ link` — and
the single operation's mask string is exactly the comma-join of that list. -/
theorem fieldMask_one_entry_per_attribute (ts : TextStyle) :
    fieldsToUpdate ts = (populatedAttrNames ts).map canonicalFieldName ∧
    (fieldsToUpdate ts).length = (populatedAttrNames ts).length ∧
    (∀ range l, buildTextStyleRequests ts range = .ok l →
      ∀ r ∈ l, ∃ u, r.updateTextStyle = some u ∧
        u.fields = String.intercalate "," ((populatedAttrNames ts).map canonicalFieldName)) := by
  refine ⟨fields_eq_map ts, by rw [fields_eq_map ts]; simp, ?_⟩
  intro range l h r hr
  obtain ⟨fg, bg, hfg, hbg, hcase | hcase⟩ := build_ok_shape h
  · rw [hcase.2] at hr; simp at hr
  · rw [hcase.2] at hr
    simp at hr
    subst hr
    exact ⟨_, rfl, by rw [← fields_eq_map ts]⟩

/-- Claim C1 witness: the amended statement evaluated at the intent
populating `bold` and `fontFamily` over the range `[1,2)`. -/
theorem fieldMask_one_entry_per_attribute_witness :
    fieldsToUpdate { bold := some true, fontFamily := some "Arial" } =
      (populatedAttrNames { bold := some true, fontFamily := some "Arial" }).map
        canonicalFieldName ∧
    ∀ r ∈ ([{ updateTextStyle := some
                { range := { startIndex := 1, endIndex := 2 }
                  textStyle := { bold := some true
                                 weightedFontFamily := some { fontFamily := "Arial" } }
                  fields := "bold,weightedFontFamily" } }] : List DocsRequest),
      ∃ u, r.updateTextStyle = some u ∧
        u.fields = String.intercalate ","
          ((populatedAttrNames { bold := some true, fontFamily := some "Arial" }).map
            canonicalFieldName) :=
  ⟨(fieldMask_one_entry_per_attribute _).1,
   (fieldMask_one_entry_per_attribute _).2.2 { startIndex := 1, endIndex := 2 } _ rfl⟩

/-- Claim C2 (code bug evaluation): `hexToRgbColor "12GGGG"` returns a color
triple even though `G` is not a hexadecimal digit, because JavaScript
`parseInt` converts the longest hexadecimal prefix `12`; the claim (and the
function's own documentation) says any non-hex-digit character must yield
invalid. -/
theorem hexToRgbColor_accepts_nonhex_input :
    hexToRgbColor "12GGGG" = some { red := 0, green := 0, blue := 18 / 255 } ∧
    hexDigitVal? 'G' = none ∧ 'G' ∈ "12GGGG".data := by
  refine ⟨?_, by decide, by decide⟩
  have h : hexToRgbColor "12GGGG" =
      some { red := channelFrac 18 16, green := channelFrac 18 8, blue := channelFrac 18 0 } := rfl
  rw [h]
  norm_num [channelFrac, show Int.emod (Int.fdiv 18 65536) 256 = 0 from by decide,
    show Int.emod (Int.fdiv 18 256) 256 = 0 from by decide,
    show Int.emod (Int.fdiv 18 1) 256 = 18 from by decide]

/-- Claim C3: whenever the `n`-th (1-indexed) non-overlapping occurrence of
the needle exists at zero-based position `p`, the locator returns 1-based
`start = p + 1` and `end = start + needle.length`; in particular occurrence 2
of `ab` in `ababab` yields the range `(3, 5)`. -/
theorem locateOccurrence_nth_match :
    (∀ (fullText needle : List Char) (n : Int) (p : Nat), 1 ≤ n →
      specNthMatch fullText needle n.toNat = some p →
      formatMatchingTextLocate fullText needle n =
        .ok ((p : Int) + 1, ((p : Int) + 1) + (needle.length : Int))) ∧
    formatMatchingTextLocate "ababab".data "ab".data 2 = .ok (3, 5) := by
  refine ⟨?_, rfl⟩
  intro fullText needle n p hn h
  have hloc := locateAux_of_nth fullText needle n.toNat 0 0 (-1) p h
  unfold formatMatchingTextLocate
  rw [hloc]

/-- Claim C3 witness: the general statement evaluated on `ababab` / `ab` /
occurrence 2, whose second non-overlapping match is at zero-based position
2. -/
theorem locateOccurrence_nth_match_witness :
    formatMatchingTextLocate "ababab".data "ab".data 2 =
      .ok (((2 : Nat) : Int) + 1, (((2 : Nat) : Int) + 1) + ("ab".data.length : Int)) :=
  locateOccurrence_nth_match.1 "ababab".data "ab".data 2 2 (by norm_num) rfl

/-- Claim C4: when `buildTextStyleRequests` returns, the result is a single
combined operation carrying the full payload and the full comma-joined field
mask when at least one attribute is populated, and the empty list otherwise;
the empty intent always yields `[]`, and `{bold := true}` over `[5,10)`
yields exactly one operation with mask `bold` and payload setting only
`bold := true`. -/
theorem buildTextStyleRequests_single_or_empty :
    (∀ ts range l, buildTextStyleRequests ts range = .ok l →
      l.length ≤ 1 ∧
      (populatedAttrNames ts = [] → l = []) ∧
      (populatedAttrNames ts ≠ [] → ∃ fg bg,
        decodeFg ts.foregroundColor = .ok fg ∧ decodeBg ts.backgroundColor = .ok bg ∧
        l = [{ updateTextStyle := some
                 { range := range
                   textStyle := gdocsTextStyle ts fg bg
                   fields := String.intercalate "," (fieldsToUpdate ts) } }])) ∧
    (∀ range, buildTextStyleRequests {} range = .ok []) ∧
    buildTextStyleRequests { bold := some true } { startIndex := 5, endIndex := 10 } =
      .ok [{ updateTextStyle := some
               { range := { startIndex := 5, endIndex := 10 }
                 textStyle := { bold := some true }
                 fields := "bold" } }] := by
  refine ⟨?_, fun range => rfl, rfl⟩
  intro ts range l h
  have hmapnil : fieldsToUpdate ts = [] ↔ populatedAttrNames ts = [] := by
    rw [fields_eq_map ts]
    simp
  obtain ⟨fg, bg, hfg, hbg, hcase | hcase⟩ := build_ok_shape h
  · obtain ⟨hfields, hl⟩ := hcase
    subst hl
    exact ⟨by simp, fun _ => rfl, fun hp => absurd (hmapnil.mp hfields) hp⟩
  · obtain ⟨hfields, hl⟩ := hcase
    subst hl
    refine ⟨by simp, fun hp => absurd (hmapnil.mpr hp) hfields,
      fun _ => ⟨fg, bg, hfg, hbg, rfl⟩⟩

/-- Claim C4 witness: the general statement evaluated at the intent
`{bold := true}` over `[5,10)`, whose build result is the single `bold`
operation. -/
theorem buildTextStyleRequests_single_or_empty_witness :
    ([{ updateTextStyle := some
          { range := { startIndex := 5, endIndex := 10 }
            textStyle := { bold := some true }
            fields := "bold" } }] : List DocsRequest).length ≤ 1 ∧
    (∃ fg bg,
      decodeFg (TextStyle.foregroundColor { bold := some true }) = .ok fg ∧
      decodeBg (TextStyle.backgroundColor { bold := some true }) = .ok bg ∧
      ([{ updateTextStyle := some
            { range := { startIndex := 5, endIndex := 10 }
              textStyle := { bold := some true }
              fields := "bold" } }] : List DocsRequest) =
        [{ updateTextStyle := some
             { range := { startIndex := 5, endIndex := 10 }
               textStyle := gdocsTextStyle { bold := some true } fg bg
               fields := String.intercalate "," (fieldsToUpdate { bold := some true }) } }]) :=
  ⟨(buildTextStyleRequests_single_or_empty.1 { bold := some true }
      { startIndex := 5, endIndex := 10 } _ rfl).1,
   (buildTextStyleRequests_single_or_empty.1 { bold := some true }
      { startIndex := 5, endIndex := 10 } _ rfl).2.2 (by decide)⟩

/-- Claim C5: sparse presence semantics — on any successful build, each
payload field mirrors the intent attribute exactly (absent attribute: `none`
in the payload; present attribute, falsy values included: set to that value),
and each canonical field name is in the mask list exactly when the attribute
is present. -/
theorem buildTextStyleRequests_sparse_presence :
    ∀ ts range l, buildTextStyleRequests ts range = .ok l →
      (∀ r ∈ l, ∃ u, r.updateTextStyle = some u ∧
        u.textStyle.bold = ts.bold ∧ u.textStyle.italic = ts.italic ∧
        u.textStyle.underline = ts.underline ∧
        u.textStyle.strikethrough = ts.strikethrough ∧
        u.textStyle.fontSize = ts.fontSize.map (fun m => { magnitude := m, unit := "PT" }) ∧
        u.textStyle.weightedFontFamily = ts.fontFamily.map (fun f => { fontFamily := f }) ∧
        (ts.foregroundColor = none → u.textStyle.foregroundColor = none) ∧
        (∀ hex, ts.foregroundColor = some hex → ∃ rgb, hexToRgbColor hex = some rgb ∧
          u.textStyle.foregroundColor = some { color := { rgbColor := rgb } }) ∧
        (ts.backgroundColor = none → u.textStyle.backgroundColor = none) ∧
        (∀ hex, ts.backgroundColor = some hex → ∃ rgb, hexToRgbColor hex = some rgb ∧
          u.textStyle.backgroundColor = some { color := { rgbColor := rgb } }) ∧
        u.textStyle.link = ts.linkUrl.map (fun target => { url := target })) ∧
      (("bold" ∈ fieldsToUpdate ts ↔ ts.bold ≠ none) ∧
       ("italic" ∈ fieldsToUpdate ts ↔ ts.italic ≠ none) ∧
       ("underline" ∈ fieldsToUpdate ts ↔ ts.underline ≠ none) ∧
       ("strikethrough" ∈ fieldsToUpdate ts ↔ ts.strikethrough ≠ none) ∧
       ("fontSize" ∈ fieldsToUpdate ts ↔ ts.fontSize ≠ none) ∧
       ("weightedFontFamily" ∈ fieldsToUpdate ts ↔ ts.fontFamily ≠ none) ∧
       ("foregroundColor" ∈ fieldsToUpdate ts ↔ ts.foregroundColor ≠ none) ∧
       ("backgroundColor" ∈ fieldsToUpdate ts ↔ ts.backgroundColor ≠ none) ∧
       ("link" ∈ fieldsToUpdate ts ↔ ts.linkUrl ≠ none)) := by
  intro ts range l h
  constructor
  · intro r hr
    obtain ⟨fg, bg, hfg, hbg, hcase | hcase⟩ := build_ok_shape h
    · rw [hcase.2] at hr; simp at hr
    · rw [hcase.2] at hr
      simp at hr
      subst hr
      refine ⟨_, rfl, rfl, rfl, rfl, rfl, rfl, rfl, ?_, ?_, ?_, ?_, rfl⟩
      · intro h0
        rcases decodeFg_ok_cases hfg with ⟨_, hfgn⟩ | ⟨hex, rgb, hv, _, _⟩
        · simp [gdocsTextStyle, hfgn]
        · rw [h0] at hv; exact absurd hv (by simp)
      · intro hex hh
        rcases decodeFg_ok_cases hfg with ⟨hvn, _⟩ | ⟨hex0, rgb0, hv, hrgb, hfgeq⟩
        · rw [hh] at hvn; exact absurd hvn (by simp)
        · rw [hh] at hv
          obtain rfl : hex0 = hex := by injection hv.symm
          exact ⟨rgb0, hrgb, by simp [gdocsTextStyle, hfgeq]⟩
      · intro h0
        rcases decodeBg_ok_cases hbg with ⟨_, hbgn⟩ | ⟨hex, rgb, hv, _, _⟩
        · simp [gdocsTextStyle, hbgn]
        · rw [h0] at hv; exact absurd hv (by simp)
      · intro hex hh
        rcases decodeBg_ok_cases hbg with ⟨hvn, _⟩ | ⟨hex0, rgb0, hv, hrgb, hbgeq⟩
        · rw [hh] at hvn; exact absurd hvn (by simp)
        · rw [hh] at hv
          obtain rfl : hex0 = hex := by injection hv.symm
          exact ⟨rgb0, hrgb, by simp [gdocsTextStyle, hbgeq]⟩
  · refine ⟨?_, ?_, ?_, ?_, ?_, ?_, ?_, ?_, ?_⟩ <;> simp [fieldsToUpdate, mem_presSeg]

/-- Claim C5 witness: the statement evaluated at the intent populating only
the falsy `bold := false`, over `[1,2)`: the payload carries `bold = some
false` and the mask contains exactly `bold`. -/
theorem buildTextStyleRequests_sparse_presence_witness :
    (∀ r ∈ ([{ updateTextStyle := some
                 { range := { startIndex := 1, endIndex := 2 }
                   textStyle := { bold := some false }
                   fields := "bold" } }] : List DocsRequest),
      ∃ u, r.updateTextStyle = some u ∧
        u.textStyle.bold = ({ bold := some false } : TextStyle).bold ∧
        u.textStyle.italic = ({ bold := some false } : TextStyle).italic ∧
        u.textStyle.underline = ({ bold := some false } : TextStyle).underline ∧
        u.textStyle.strikethrough = ({ bold := some false } : TextStyle).strikethrough ∧
        u.textStyle.fontSize = (({ bold := some false } : TextStyle).fontSize).map
          (fun m => { magnitude := m, unit := "PT" }) ∧
        u.textStyle.weightedFontFamily = (({ bold := some false } : TextStyle).fontFamily).map
          (fun f => { fontFamily := f }) ∧
        (({ bold := some false } : TextStyle).foregroundColor = none →
          u.textStyle.foregroundColor = none) ∧
        (∀ hex, ({ bold := some false } : TextStyle).foregroundColor = some hex →
          ∃ rgb, hexToRgbColor hex = some rgb ∧
            u.textStyle.foregroundColor = some { color := { rgbColor := rgb } }) ∧
        (({ bold := some false } : TextStyle).backgroundColor = none →
          u.textStyle.backgroundColor = none) ∧
        (∀ hex, ({ bold := some false } : TextStyle).backgroundColor = some hex →
          ∃ rgb, hexToRgbColor hex = some rgb ∧
            u.textStyle.backgroundColor = some { color := { rgbColor := rgb } }) ∧
        u.textStyle.link = (({ bold := some false } : TextStyle).linkUrl).map
          (fun target => { url := target })) ∧
    (("bold" ∈ fieldsToUpdate { bold := some false } ↔
        ({ bold := some false } : TextStyle).bold ≠ none) ∧
     ("italic" ∈ fieldsToUpdate { bold := some false } ↔
        ({ bold := some false } : TextStyle).italic ≠ none) ∧
     ("underline" ∈ fieldsToUpdate { bold := some false } ↔
        ({ bold := some false } : TextStyle).underline ≠ none) ∧
     ("strikethrough" ∈ fieldsToUpdate { bold := some false } ↔
        ({ bold := some false } : TextStyle).strikethrough ≠ none) ∧
     ("fontSize" ∈ fieldsToUpdate { bold := some false } ↔
        ({ bold := some false } : TextStyle).fontSize ≠ none) ∧
     ("weightedFontFamily" ∈ fieldsToUpdate { bold := some false } ↔
        ({ bold := some false } : TextStyle).fontFamily ≠ none) ∧
     ("foregroundColor" ∈ fieldsToUpdate { bold := some false } ↔
        ({ bold := some false } : TextStyle).foregroundColor ≠ none) ∧
     ("backgroundColor" ∈ fieldsToUpdate { bold := some false } ↔
        ({ bold := some false } : TextStyle).backgroundColor ≠ none) ∧
     ("link" ∈ fieldsToUpdate { bold := some false } ↔
        ({ bold := some false } : TextStyle).linkUrl ≠ none)) :=
  buildTextStyleRequests_sparse_presence { bold := some false }
    { startIndex := 1, endIndex := 2 } _ rfl

/-- Claim C6: when the `n`-th non-overlapping occurrence does not exist, the
locator fails reporting exactly the number of occurrences actually found; in
particular `aaa` / `aa` / occurrence 2 fails reporting 1, and `abc` / `xyz` /
occurrence 1 fails reporting 0. -/
theorem locateOccurrence_notfound_reports_count :
    (∀ (fullText needle : List Char) (n : Int), 1 ≤ n →
      specNthMatch fullText needle n.toNat = none →
      formatMatchingTextLocate fullText needle n =
        .error (specMatchCount fullText needle n.toNat) ∧
      specMatchCount fullText needle n.toNat < n.toNat) ∧
    formatMatchingTextLocate "aaa".data "aa".data 2 = .error 1 ∧
    formatMatchingTextLocate "abc".data "xyz".data 1 = .error 0 := by
  refine ⟨?_, rfl, rfl⟩
  intro fullText needle n hn h
  obtain ⟨m, hm⟩ : ∃ m, n.toNat = m + 1 := ⟨n.toNat - 1, by omega⟩
  rw [hm] at h
  unfold specNthMatch at h
  have hrec := locateAux_of_nth_none fullText needle m 0 0 (-1) h
  constructor
  · unfold formatMatchingTextLocate specMatchCount
    rw [hm, hrec.1]
    simp
  · unfold specMatchCount
    rw [hm]
    omega

/-- Claim C6 witness: the general statement evaluated on `aaa` / `aa` /
occurrence 2, which has a single non-overlapping occurrence. -/
theorem locateOccurrence_notfound_reports_count_witness :
    formatMatchingTextLocate "aaa".data "aa".data 2 =
      .error (specMatchCount "aaa".data "aa".data (2 : Int).toNat) ∧
    specMatchCount "aaa".data "aa".data (2 : Int).toNat < (2 : Int).toNat :=
  locateOccurrence_notfound_reports_count.1 "aaa".data "aa".data 2 (by norm_num) rfl

/-- Claim C7: an intent whose foreground (or background) color literal the
codec rejects makes the builder fail with the exact error message naming the
attribute and the offending literal, and the builder never returns a result
in that situation. -/
theorem buildTextStyleRequests_invalid_color_error :
    ∀ ts range,
      (∀ c, ts.foregroundColor = some c → hexToRgbColor c = none →
        buildTextStyleRequests ts range =
          .error ("Invalid foreground hex color: " ++ c)) ∧
      (∀ c, ts.backgroundColor = some c → hexToRgbColor c = none →
        (∀ cf, ts.foregroundColor = some cf → (hexToRgbColor cf).isSome = true) →
        buildTextStyleRequests ts range =
          .error ("Invalid background hex color: " ++ c)) ∧
      (∀ c, (ts.foregroundColor = some c ∨ ts.backgroundColor = some c) →
        hexToRgbColor c = none →
        ∀ l, buildTextStyleRequests ts range ≠ .ok l) := by
  intro ts range
  have hfgerr : ∀ c, ts.foregroundColor = some c → hexToRgbColor c = none →
      buildTextStyleRequests ts range = .error ("Invalid foreground hex color: " ++ c) := by
    intro c hc hn
    rw [buildTextStyleRequests.eq_def, hc]
    simp [decodeFg, hn]
  have hbgerr : ∀ c, ts.backgroundColor = some c → hexToRgbColor c = none →
      (∀ cf, ts.foregroundColor = some cf → (hexToRgbColor cf).isSome = true) →
      buildTextStyleRequests ts range = .error ("Invalid background hex color: " ++ c) := by
    intro c hc hn hfgok
    rw [buildTextStyleRequests.eq_def]
    cases hv : ts.foregroundColor with
    | none =>
      rw [show decodeFg none = .ok none from rfl, hc]
      simp [decodeBg, hn]
    | some cf =>
      obtain ⟨rgb, hrgb⟩ := Option.isSome_iff_exists.mp (hfgok cf hv)
      rw [show decodeFg (some cf) = .ok (some rgb) from by simp [decodeFg, hrgb], hc]
      simp [decodeBg, hn]
  refine ⟨hfgerr, hbgerr, ?_⟩
  intro c hor hn l
  rcases hor with hc | hc
  · rw [hfgerr c hc hn]; simp
  · cases hfg : decodeFg ts.foregroundColor with
    | error e =>
      rw [buildTextStyleRequests.eq_def, hfg]
      simp
    | ok fg =>
      rw [buildTextStyleRequests.eq_def, hfg, hc]
      simp [decodeBg, hn]

/-- Claim C7 witness: the statement evaluated at the intent whose foreground
color is the rejected literal `#ZZZZZZ`. -/
theorem buildTextStyleRequests_invalid_color_error_witness :
    buildTextStyleRequests { foregroundColor := some "#ZZZZZZ" }
        { startIndex := 1, endIndex := 2 } =
      .error ("Invalid foreground hex color: " ++ "#ZZZZZZ") :=
  (buildTextStyleRequests_invalid_color_error { foregroundColor := some "#ZZZZZZ" }
      { startIndex := 1, endIndex := 2 }).1 "#ZZZZZZ" rfl rfl

/-- Claim C8 counterexample: a permission error returned by the remote
batch-update endpoint is propagated through the dispatcher unchanged and
wrapped by the tool layer with the fixed prefix only; the resulting error
text does not contain the documentId `doc-123` anywhere, refuting the claim
that the documentId is attached. -/
theorem executeBatchUpdate_no_documentId_cex :
    executeBatchUpdate ⟨fun _ _ => .error "The caller does not have permission"⟩
        "doc-123" [] = .error "The caller does not have permission" ∧
    toolErrorWrap "The caller does not have permission" =
      "Tool execution failed: The caller does not have permission" ∧
    jsIndexOf (toolErrorWrap "The caller does not have permission").data
        "doc-123".data 0 = none :=
  ⟨rfl, rfl, by decide⟩

/-- Claim C8 (amended): every error of the remote batch-update call is
propagated by the dispatcher unchanged (uninspected, no retry logic exists in
it), and the tool layer wraps it only with the fixed prefix
`Tool execution failed: `; the documentId is not attached. -/
theorem executeBatchUpdate_propagates_error :
    ∀ (docs : DocsClient) (documentId : String) (requests : List DocsRequest) (e : String),
      docs.batchUpdate documentId requests = .error e →
      executeBatchUpdate docs documentId requests = .error e ∧
      toolErrorWrap e = "Tool execution failed: " ++ e := by
  intro docs documentId requests e h
  refine ⟨?_, rfl⟩
  unfold executeBatchUpdate
  rw [h]

/-- Claim C8 witness: the amended statement evaluated for a client whose
batch-update call fails with a fixed authentication error. -/
theorem executeBatchUpdate_propagates_error_witness :
    executeBatchUpdate ⟨fun _ _ => .error "insufficient authentication scopes"⟩
        "doc-9" [] = .error "insufficient authentication scopes" ∧
    toolErrorWrap "insufficient authentication scopes" =
      "Tool execution failed: " ++ "insufficient authentication scopes" :=
  executeBatchUpdate_propagates_error
    ⟨fun _ _ => .error "insufficient authentication scopes"⟩ "doc-9" [] _ rfl

/-- Claim C9: every valid six-hex-digit input (bare or with leading `#`)
yields a color with all three components in `[0,1]`; `#FF0000` decodes to
`(1,0,0)`; every three-digit shorthand decodes like its digit-duplicated
six-digit form, and in particular `F00` equals `FF0000`. -/
theorem hexToRgbColor_valid_hex :
    (∀ ds : List Char, ds.length = 6 → (∀ c ∈ ds, (hexDigitVal? c).isSome = true) →
      ∃ col, hexToRgbColorCore ds = some col ∧
        0 ≤ col.red ∧ col.red ≤ 1 ∧ 0 ≤ col.green ∧ col.green ≤ 1 ∧
        0 ≤ col.blue ∧ col.blue ≤ 1) ∧
    (∀ ds : List Char, ds.length = 6 → (∀ c ∈ ds, (hexDigitVal? c).isSome = true) →
      hexToRgbColorCore ('#' :: ds) = hexToRgbColorCore ds) ∧
    hexToRgbColor "#FF0000" = some { red := 1, green := 0, blue := 0 } ∧
    (∀ a b c : Char, (hexDigitVal? a).isSome = true →
      hexToRgbColorCore [a, b, c] = hexToRgbColorCore [a, a, b, b, c, c]) ∧
    hexToRgbColor "F00" = hexToRgbColor "FF0000" := by
  refine ⟨?_, ?_, ?_, ?_, rfl⟩
  · intro ds h6 hall
    obtain ⟨a, b, c, d, e, f, rfl⟩ : ∃ a b c d e f, ds = [a, b, c, d, e, f] := by
      rcases ds with _ | ⟨a, _ | ⟨b, _ | ⟨c, _ | ⟨d, _ | ⟨e, _ | ⟨f, _ | ⟨g, tl⟩⟩⟩⟩⟩⟩⟩ <;> simp_all
    rw [hexToRgbColorCore_six a b c d e f (hall a (by simp)) (hall b (by simp))]
    exact ⟨_, rfl, channelFrac_nonneg _ _, channelFrac_le_one _ _,
      channelFrac_nonneg _ _, channelFrac_le_one _ _,
      channelFrac_nonneg _ _, channelFrac_le_one _ _⟩
  · intro ds h6 hall
    obtain ⟨a, b, c, d, e, f, rfl⟩ : ∃ a b c d e f, ds = [a, b, c, d, e, f] := by
      rcases ds with _ | ⟨a, _ | ⟨b, _ | ⟨c, _ | ⟨d, _ | ⟨e, _ | ⟨f, _ | ⟨g, tl⟩⟩⟩⟩⟩⟩⟩ <;> simp_all
    exact hexToRgbColorCore_hash_six a b c d e f (hall a (by simp))
  · have h : hexToRgbColor "#FF0000" =
        some { red := channelFrac 16711680 16, green := channelFrac 16711680 8,
               blue := channelFrac 16711680 0 } := rfl
    rw [h]
    norm_num [channelFrac, show Int.emod (Int.fdiv 16711680 65536) 256 = 255 from by decide,
      show Int.emod (Int.fdiv 16711680 256) 256 = 0 from by decide,
      show Int.emod (Int.fdiv 16711680 1) 256 = 0 from by decide]
  · intro a b c ha
    exact hexToRgbColorCore_three a b c ha

/-- Claim C9 witness: the universally quantified parts evaluated at the
six-digit input `A1B2C3` and the shorthand `F00`. -/
theorem hexToRgbColor_valid_hex_witness :
    (∃ col, hexToRgbColorCore "A1B2C3".data = some col ∧
      0 ≤ col.red ∧ col.red ≤ 1 ∧ 0 ≤ col.green ∧ col.green ≤ 1 ∧
      0 ≤ col.blue ∧ col.blue ≤ 1) ∧
    hexToRgbColorCore ('#' :: "A1B2C3".data) = hexToRgbColorCore "A1B2C3".data ∧
    hexToRgbColorCore ['F', '0', '0'] = hexToRgbColorCore ['F', 'F', '0', '0', '0', '0'] :=
  ⟨hexToRgbColor_valid_hex.1 "A1B2C3".data (by decide) (by decide),
   hexToRgbColor_valid_hex.2.1 "A1B2C3".data (by decide) (by decide),
   hexToRgbColor_valid_hex.2.2.2.1 'F' '0' '0' (by decide)⟩

/-- Claim C10 counterexample: an invocation of formatMatchingText with a
non-empty style and an empty search string is not rejected: the handler runs
the locator on the empty needle and succeeds with the degenerate range
`(1, 1)`. -/
theorem formatMatchingText_empty_needle_not_rejected_cex :
    formatMatchingTextHandler { bold := some true } "abc".data [] 1 = .ok (1, 1) ∧
    populatedAttrNames { bold := some true } ≠ [] :=
  ⟨rfl, by decide⟩

/-- Claim C10 (amended): the handler performs no empty-needle check — its
only pre-locator validation is the empty-style check — so with an empty
search string the locator runs and, for every matchInstance at least 1 and
any document text, returns the degenerate range `(1, 1)`. -/
theorem formatMatchingText_empty_needle_runs :
    ∀ (ts : TextStyle) (fullText : List Char) (n : Int),
      populatedAttrNames ts ≠ [] → 1 ≤ n →
      formatMatchingTextHandler ts fullText [] n = .ok (1, 1) := by
  intro ts fullText n hts hn
  unfold formatMatchingTextHandler
  rw [if_neg (by simpa using hts)]
  obtain ⟨k, hk⟩ : ∃ k, n.toNat = k + 1 := ⟨n.toNat - 1, by omega⟩
  have hloc : formatMatchingTextLocate fullText [] n = .ok (1, 1) := by
    unfold formatMatchingTextLocate
    rw [hk, locateAux_empty_needle fullText k 0]
    simp
  rw [hloc]

/-- Claim C10 witness: the amended statement evaluated at the bold-only
intent, text `xyz`, empty needle and matchInstance 2. -/
theorem formatMatchingText_empty_needle_runs_witness :
    formatMatchingTextHandler { bold := some true } "xyz".data [] 2 = .ok (1, 1) :=
  formatMatchingText_empty_needle_runs { bold := some true } "xyz".data 2
    (by decide) (by norm_num)
